import Mathlib

/-!
# netifd team device (`team.c`)

A shallow embedding of the team device type of netifd: the three helper
commands built by `team_create`, the admin-up / admin-down handler
`team_set_state`, the configuration reload `team_reload` and `team_free`.

Everything the C code does to the outside world is recorded, in order, in a
trace of events: the commands handed to `system()`, the calls of `sleep()` and
the calls of the `set_state` handler saved from the generic device layer.
The exit statuses returned by `system()` are supplied by the world as a
sequence, one status per call.
-/

namespace Team

/-! ## Data model -/

/-- A C string: the bytes that precede the terminating NUL. -/
abbrev CStr := List Char

/-- One externally visible action of the device code. -/
inductive Event where
  /-- A command printed and passed to `system()` by the C function `run_cmd`. -/
  | cmd (c : CStr)
  /-- A call `sleep(secs)`. -/
  | sleep (secs : Nat)
  /-- A call `teamdev->set_state(dev, up)` of the saved handler `hook`. -/
  | set_state (hook : Nat) (up : Bool)
  deriving DecidableEq, Repr

/-- The world outside the process: `sys i` is the exit status that the `i`-th
`system()` call from now on returns, `trace` the events so far, oldest first. -/
structure World where
  sys : Nat → Int
  trace : List Event

/-- The attribute blob of a device configuration, as `blobmsg_parse` with the
policy `team_attrs` sees it: the array attribute `ifname` when it is there
(its elements read with `blobmsg_get_string`), and the attributes the team
device does not look at (those of `device_attr_list`). -/
structure blob_attr where
  ifname : Option (List CStr)
  params : List (CStr × CStr)
  deriving DecidableEq, Repr

/-- The result type of a reload, `enum dev_change_type` of `device.h`. -/
inductive dev_change_type where
  | DEV_CONFIG_NO_CHANGE
  | DEV_CONFIG_APPLIED
  | DEV_CONFIG_RESTART
  | DEV_CONFIG_RECREATE
  deriving DecidableEq, Repr

/-- The value of the function pointer `dev->set_state`: a handler of the
generic device layer, named by a number, or `team_set_state`. -/
inductive device_state_cb where
  | framework (hook : Nat)
  | team_set_state
  deriving DecidableEq, Repr

/-- The fields of `struct device` the team device reads or writes. The
declaration in `device.h` is `char ifname[IFNAMSIZ]`, so a device name has at
most `IFNAMSIZ - 1 = 15` characters. -/
structure device where
  ifname : CStr
  set_state : device_state_cb
  present : Bool
  deriving DecidableEq, Repr

/-- The record `struct team_device`. `set_state` is the saved handler of the
generic device layer; `config_data` and `ifnames` are `none` for `NULL`. -/
structure team_device where
  dev : device
  set_state : Nat
  config_data : Option blob_attr
  ifnames : Option (List CStr)
  start_cmd : CStr
  kill_cmd : CStr
  check_cmd : CStr
  deriving DecidableEq, Repr

/-- What the generic device layer contributes to `team_create`: whether
`calloc` returns memory, and what `device_init` does with a name: `none` when
it returns a negative value, else the name stored in `dev->ifname` and the
default handler it installs in `dev->set_state`. -/
structure framework where
  calloc_ok : Bool
  device_init : CStr → Option (CStr × Nat)

/-! ## Helper commands -/

/-- The call `snprintf(buf, size, fmt, ...)`: of the expansion of the format,
the first `size - 1` bytes are stored (followed by the NUL). -/
def snprintf (size : Nat) (expansion : CStr) : CStr :=
  expansion.take (size - 1)

/-- Expansion of `"teamd -t %s -c '{ \"runner\": { \"name\": \"lacp\" } }' -d"`. -/
def start_fmt (ifname : CStr) : CStr :=
  "teamd -t ".toList ++ ifname ++
    " -c \x27\x7b \x22runner\x22: \x7b \x22name\x22: \x22lacp\x22 \x7d \x7d\x27 -d".toList

/-- Expansion of `"teamd -t %s -k"`. -/
def kill_fmt (ifname : CStr) : CStr :=
  "teamd -t ".toList ++ ifname ++ " -k".toList

/-- Expansion of `"teamd -t %s -e"`. -/
def check_fmt (ifname : CStr) : CStr :=
  "teamd -t ".toList ++ ifname ++ " -e".toList

/-- Expansion of `"teamdctl %s port add %s"`. -/
def add_fmt (ifname port : CStr) : CStr :=
  "teamdctl ".toList ++ ifname ++ " port add ".toList ++ port

/-- The command `team_set_state` builds in `char add_cmd[64]` for one port. -/
def add_cmd (ifname port : CStr) : CStr :=
  snprintf 64 (add_fmt ifname port)

/-! ## Operations -/

/-- The C function `run_cmd`: print the command, run it with `system()` and
return its exit status. -/
def runCmd (c : CStr) (w : World) : Int × World :=
  (w.sys 0, { sys := fun i => w.sys (i + 1), trace := w.trace ++ [Event.cmd c] })

/-- The call `sleep(secs)`. -/
def sleep (secs : Nat) (w : World) : World :=
  { w with trace := w.trace ++ [Event.sleep secs] }

/-- The poll loop of `team_set_state`,
`for (i = 0; i < 10; i++) { if (!run_cmd(check_cmd)) break; sleep(1); }`,
with `n = 10 - i` iterations still allowed. -/
def poll (check_cmd : CStr) : Nat → World → World
  | 0, w => w
  | n + 1, w =>
    let r := runCmd check_cmd w
    if r.1 = 0 then r.2 else poll check_cmd n (sleep 1 r.2)

/-- The loop `blobmsg_for_each_attr(cur, teamdev->ifnames, rem)` of
`team_set_state`: one `port add` command per element of the array. -/
def add_ports (ifname : CStr) : List CStr → World → World
  | [], w => w
  | p :: ps, w => add_ports ifname ps (runCmd (add_cmd ifname p) w).2

/-- The call `teamdev->set_state(dev, up)` of the saved handler. -/
def call_set_state (hook : Nat) (up : Bool) (w : World) : World :=
  { w with trace := w.trace ++ [Event.set_state hook up] }

/-- The function `team_set_state(dev, up)`; it always returns 0. -/
def team_set_state (t : team_device) (up : Bool) (w : World) : Int × World :=
  if up then
    let w1 := (runCmd t.start_cmd w).2
    let w2 := poll t.check_cmd 10 w1
    let w3 := match t.ifnames with
      | some l => add_ports t.dev.ifname l w2
      | none => w2
    (0, call_set_state t.set_state up w3)
  else
    (0, (runCmd t.kill_cmd w).2)

/-- The function `team_reload(dev, attr)`. -/
def team_reload (t : team_device) (attr : blob_attr) (w : World) :
    dev_change_type × team_device × World :=
  let t1 := { t with ifnames := attr.ifname }
  let r := runCmd t1.check_cmd w
  let w1 :=
    if r.1 = 0 then
      (team_set_state t1 true (team_set_state t1 false r.2).2).2
    else r.2
  (dev_change_type.DEV_CONFIG_APPLIED, { t1 with config_data := some attr }, w1)

/-- The function `team_create(name, devtype, attr)`; `none` is `NULL`. -/
def team_create (fw : framework) (name : CStr) (attr : blob_attr) (w : World) :
    Option team_device × World :=
  if fw.calloc_ok then
    match fw.device_init name with
    | none => (none, w)
    | some (ifname, hook) =>
      let t : team_device :=
        { dev := { ifname := ifname, set_state := device_state_cb.team_set_state,
                   present := true }
          set_state := hook
          config_data := none
          ifnames := none
          start_cmd := snprintf 64 (start_fmt ifname)
          kill_cmd := snprintf 64 (kill_fmt ifname)
          check_cmd := snprintf 64 (check_fmt ifname) }
      let r := team_reload t attr w
      (some r.2.1, r.2.2)
  else (none, w)

/-- The function `team_free(dev)`: it frees `config_data` and the record, runs
no command and calls no handler. -/
def team_free (_t : team_device) (w : World) : World := w

/-! ## Reading a trace -/

/-- The commands of a trace, in order. -/
def commands : List Event → List CStr
  | [] => []
  | Event.cmd c :: es => c :: commands es
  | _ :: es => commands es

/-- The flags passed to the saved handler `hook`, in order. -/
def upstream_calls (hook : Nat) : List Event → List Bool
  | [] => []
  | Event.set_state h up :: es =>
    if h = hook then up :: upstream_calls hook es else upstream_calls hook es
  | _ :: es => upstream_calls hook es

/-- The number of attempts, among the next `n`, that fail before the first
one that returns 0 (`n` when none of them returns 0). -/
def failures (sys : Nat → Int) : Nat → Nat
  | 0 => 0
  | n + 1 => if sys 0 = 0 then 0 else failures (fun i => sys (i + 1)) n + 1

/-- The events of a poll loop of at most `n` attempts in which `j` attempts
fail first: `j` times the check and a one-second sleep, then, when an attempt
is left, the check that succeeds. -/
def poll_events (check_cmd : CStr) (n j : Nat) : List Event :=
  (List.replicate j [Event.cmd check_cmd, Event.sleep 1]).flatten ++
    (if j < n then [Event.cmd check_cmd] else [])

/-- The port list a device holds: empty when `ifnames` is `NULL`. -/
def ports (t : team_device) : List CStr :=
  match t.ifnames with
  | some l => l
  | none => []

/-- The port list a configuration names: empty when it has no `ifname` array. -/
def blob_ports (attr : blob_attr) : List CStr :=
  match attr.ifname with
  | some l => l
  | none => []

/-- The events an operation added to a trace that was `before`. -/
def added (before : World) (after : World) : List Event :=
  after.trace.drop before.trace.length

/-! ## Concrete devices, configurations and worlds -/

/-- A device layer in which `calloc` succeeds and `device_init` stores the
name as given and installs handler 0. -/
def fw0 : framework :=
  { calloc_ok := true, device_init := fun n => some (n, 0) }

/-- The configuration with ports eth0, eth1. -/
def cfg01 : blob_attr :=
  { ifname := some ["eth0".toList, "eth1".toList], params := [] }

/-- The configuration with ports eth1, eth2. -/
def cfg12 : blob_attr :=
  { ifname := some ["eth1".toList, "eth2".toList], params := [] }

/-- The device `tm0` as `team_create` leaves it for the configuration `cfg01`. -/
def tm0 : team_device :=
  { dev := { ifname := "tm0".toList, set_state := device_state_cb.team_set_state,
             present := true }
    set_state := 0
    config_data := some cfg01
    ifnames := some ["eth0".toList, "eth1".toList]
    start_cmd := "teamd -t tm0 -c \x27\x7b \x22runner\x22: \x7b \x22name\x22: \x22lacp\x22 \x7d \x7d\x27 -d".toList
    kill_cmd := "teamd -t tm0 -k".toList
    check_cmd := "teamd -t tm0 -e".toList }

/-- A fresh world in which every command returns the status `s`. -/
def world_const (s : Int) : World :=
  { sys := fun _ => s, trace := [] }

/-- A fresh world in which the first `n` commands return 1 and all later
ones 0. -/
def world_fail_first (n : Nat) : World :=
  { sys := fun i => if i < n then 1 else 0, trace := [] }

/-! ## The trace of each operation -/

@[simp] theorem runCmd_trace (c : CStr) (w : World) :
    (runCmd c w).2.trace = w.trace ++ [Event.cmd c] := rfl

@[simp] theorem runCmd_sys (c : CStr) (w : World) :
    (runCmd c w).2.sys = fun i => w.sys (i + 1) := rfl

@[simp] theorem runCmd_status (c : CStr) (w : World) : (runCmd c w).1 = w.sys 0 := rfl

@[simp] theorem sleep_trace (n : Nat) (w : World) :
    (sleep n w).trace = w.trace ++ [Event.sleep n] := rfl

@[simp] theorem sleep_sys (n : Nat) (w : World) : (sleep n w).sys = w.sys := rfl

@[simp] theorem call_set_state_trace (h : Nat) (up : Bool) (w : World) :
    (call_set_state h up w).trace = w.trace ++ [Event.set_state h up] := rfl

theorem poll_events_zero_left (c : CStr) (n : Nat) :
    poll_events c (n + 1) 0 = [Event.cmd c] := by
  simp [poll_events]

theorem poll_events_succ (c : CStr) (n j : Nat) :
    poll_events c (n + 1) (j + 1) = Event.cmd c :: Event.sleep 1 :: poll_events c n j := by
  simp [poll_events, List.replicate_succ]

theorem poll_trace (c : CStr) (n : Nat) (w : World) :
    (poll c n w).trace = w.trace ++ poll_events c n (failures w.sys n) := by
  induction n generalizing w with
  | zero => simp [poll, failures, poll_events]
  | succ n ih =>
    by_cases h : w.sys 0 = 0
    · simp [poll, failures, h, poll_events_zero_left]
    · simp [poll, failures, h, poll_events_succ, ih]

theorem failures_le (sys : Nat → Int) (n : Nat) : failures sys n ≤ n := by
  induction n generalizing sys with
  | zero => simp [failures]
  | succ n ih =>
    by_cases h : sys 0 = 0
    · simp [failures, h]
    · simp [failures, h, ih]

theorem failures_all (sys : Nat → Int) (n : Nat) (h : ∀ i, i < n → sys i ≠ 0) :
    failures sys n = n := by
  induction n generalizing sys with
  | zero => simp [failures]
  | succ n ih =>
    have h0 : sys 0 ≠ 0 := h 0 (Nat.succ_pos n)
    have hs : ∀ i, i < n → sys (i + 1) ≠ 0 := fun i hi => h (i + 1) (Nat.succ_lt_succ hi)
    simp [failures, h0, ih (fun i => sys (i + 1)) hs]

theorem failures_first (sys : Nat → Int) (n j : Nat) (hj : j < n)
    (hfail : ∀ i, i < j → sys i ≠ 0) (hok : sys j = 0) : failures sys n = j := by
  induction n generalizing sys j with
  | zero => omega
  | succ n ih =>
    cases j with
    | zero => simp [failures, hok]
    | succ j =>
      have h0 : sys 0 ≠ 0 := hfail 0 (Nat.succ_pos j)
      have hs : ∀ i, i < j → sys (i + 1) ≠ 0 := fun i hi => hfail (i + 1) (Nat.succ_lt_succ hi)
      simp [failures, h0, ih (fun i => sys (i + 1)) j (by omega) hs hok]

theorem add_ports_trace (ifname : CStr) (l : List CStr) (w : World) :
    (add_ports ifname l w).trace =
      w.trace ++ l.map (fun p => Event.cmd (add_cmd ifname p)) := by
  induction l generalizing w with
  | nil => simp [add_ports]
  | cons p ps ih => simp [add_ports, ih]

/-- The events of an admin-up: the start command, the poll loop, one port add
per configured port, the call of the saved handler with `true`. -/
theorem team_set_state_up_trace (t : team_device) (w : World) :
    (team_set_state t true w).2.trace =
      w.trace ++ Event.cmd t.start_cmd ::
        (poll_events t.check_cmd 10 (failures (fun i => w.sys (i + 1)) 10) ++
          ((ports t).map (fun p => Event.cmd (add_cmd t.dev.ifname p)) ++
            [Event.set_state t.set_state true])) := by
  cases hi : t.ifnames with
  | none => simp [team_set_state, ports, hi, poll_trace]
  | some l => simp [team_set_state, ports, hi, poll_trace, add_ports_trace]

/-- The events of an admin-down: the kill command alone. -/
theorem team_set_state_down_trace (t : team_device) (w : World) :
    (team_set_state t false w).2.trace = w.trace ++ [Event.cmd t.kill_cmd] := by
  simp [team_set_state]

theorem team_set_state_down_sys (t : team_device) (w : World) :
    (team_set_state t false w).2.sys = fun i => w.sys (i + 1) := by
  simp [team_set_state]

theorem commands_append (a b : List Event) : commands (a ++ b) = commands a ++ commands b := by
  induction a with
  | nil => simp [commands]
  | cons e es ih => cases e <;> simp [commands, ih]

theorem commands_map_cmd (l : List CStr) : commands (l.map Event.cmd) = l := by
  induction l with
  | nil => simp [commands]
  | cons c cs ih => simp [commands, ih]

theorem commands_map_fun (f : CStr → CStr) (l : List CStr) :
    commands (l.map (fun p => Event.cmd (f p))) = l.map f := by
  induction l with
  | nil => simp [commands]
  | cons c cs ih => simp [commands, ih]

theorem commands_poll_events (c : CStr) (n j : Nat) :
    commands (poll_events c n j) = List.replicate (if j < n then j + 1 else j) c := by
  induction j generalizing n with
  | zero =>
    cases n with
    | zero => simp [poll_events, commands]
    | succ n => simp [poll_events, commands]
  | succ j ih =>
    cases n with
    | zero => 
      have := ih 0
      simp [poll_events, commands, List.replicate_succ] at this ⊢
      exact this
    | succ n =>
      rw [poll_events_succ]
      simp [commands, ih n, List.replicate_succ]
      split <;> simp [List.replicate_succ]

theorem upstream_calls_append (h : Nat) (a b : List Event) :
    upstream_calls h (a ++ b) = upstream_calls h a ++ upstream_calls h b := by
  induction a with
  | nil => simp [upstream_calls]
  | cons e es ih =>
    cases e with
    | cmd c => simp [upstream_calls, ih]
    | sleep n => simp [upstream_calls, ih]
    | set_state g up =>
      by_cases hg : g = h
      · simp [upstream_calls, hg, ih]
      · simp [upstream_calls, hg, ih]

theorem upstream_calls_poll_events (h : Nat) (c : CStr) (n j : Nat) :
    upstream_calls h (poll_events c n j) = [] := by
  induction j generalizing n with
  | zero => 
    by_cases hn : 0 < n
    · simp [poll_events, upstream_calls, hn]
    · simp [poll_events, upstream_calls, hn]
  | succ j ih =>
    have := ih 0
    simp only [poll_events, List.replicate_succ, List.flatten_cons, List.append_assoc,
      List.cons_append, List.nil_append, upstream_calls] at this ⊢
    by_cases hn : j + 1 < n
    · simp [hn, upstream_calls_append, upstream_calls] at this ⊢
      simpa [upstream_calls_append, upstream_calls] using this
    · simp [hn, upstream_calls_append, upstream_calls] at this ⊢
      simpa [upstream_calls_append, upstream_calls] using this

theorem upstream_calls_map_cmd (h : Nat) (l : List CStr) (f : CStr → CStr) :
    upstream_calls h (l.map (fun p => Event.cmd (f p))) = [] := by
  induction l with
  | nil => simp [upstream_calls]
  | cons c cs ih => simp [upstream_calls, ih]

theorem failures_spec (sys : Nat → Int) (n : Nat) :
    (∀ i, i < failures sys n → sys i ≠ 0) ∧
      (failures sys n < n → sys (failures sys n) = 0) := by
  induction n generalizing sys with
  | zero => simp [failures]
  | succ n ih =>
    by_cases h : sys 0 = 0
    · simp [failures, h]
    · have ih1 := ih (fun i => sys (i + 1))
      simp only [failures, h, if_false]
      refine ⟨?_, ?_⟩
      · intro i hi
        cases i with
        | zero => exact h
        | succ i => exact ih1.1 i (by omega)
      · intro hlt
        exact ih1.2 (by omega)

theorem poll_sys (c : CStr) (n : Nat) (w : World) :
    (poll c n w).sys = fun i => w.sys (i + min (failures w.sys n + 1) n) := by
  induction n generalizing w with
  | zero => simp [poll, failures]
  | succ n ih =>
    by_cases h : w.sys 0 = 0
    · simp [poll, failures, h]
    · simp only [poll, runCmd_status, h, if_false, failures, ih, sleep_sys, runCmd_sys]
      funext i
      congr 1
      omega

theorem added_append (w w1 : World) (evs : List Event) (h : w1.trace = w.trace ++ evs) :
    added w w1 = evs := by
  simp [added, h]

theorem team_create_some (fw : framework) (name : CStr) (attr : blob_attr) (w w1 : World)
    (t : team_device) (h : team_create fw name attr w = (some t, w1)) :
    ∃ ifname hook, fw.device_init name = some (ifname, hook) ∧
      t = { dev := { ifname := ifname, set_state := device_state_cb.team_set_state,
                     present := true }
            set_state := hook
            config_data := some attr
            ifnames := attr.ifname
            start_cmd := snprintf 64 (start_fmt ifname)
            kill_cmd := snprintf 64 (kill_fmt ifname)
            check_cmd := snprintf 64 (check_fmt ifname) } := by
  unfold team_create at h
  by_cases hc : fw.calloc_ok = true
  · cases hi : fw.device_init name with
    | none => simp [hc, hi] at h
    | some r =>
      obtain ⟨ifname, hook⟩ := r
      simp only [hc, hi, if_true, team_reload, Prod.mk.injEq, Option.some.injEq] at h
      exact ⟨ifname, hook, rfl, h.1.symm⟩
  · simp [hc] at h

/-- The record after a reload: the new port list and the new configuration
are stored, whatever the health check returned. -/
theorem team_reload_device (t : team_device) (attr : blob_attr) (w : World) :
    (team_reload t attr w).2.1 = { t with ifnames := attr.ifname, config_data := some attr } :=
  rfl

theorem team_reload_result (t : team_device) (attr : blob_attr) (w : World) :
    (team_reload t attr w).1 = dev_change_type.DEV_CONFIG_APPLIED := rfl

/-- The events of a reload whose first check fails: that check alone. -/
theorem team_reload_trace_stopped (t : team_device) (attr : blob_attr) (w : World)
    (h : w.sys 0 ≠ 0) :
    (team_reload t attr w).2.2.trace = w.trace ++ [Event.cmd t.check_cmd] := by
  simp [team_reload, h]

/-- The events of a reload whose first check succeeds: the check, the kill
command, then a whole admin-up with the new port list. -/
theorem team_reload_trace_running (t : team_device) (attr : blob_attr) (w : World)
    (h : w.sys 0 = 0) :
    (team_reload t attr w).2.2.trace =
      w.trace ++ Event.cmd t.check_cmd :: Event.cmd t.kill_cmd :: Event.cmd t.start_cmd ::
        (poll_events t.check_cmd 10 (failures (fun i => w.sys (i + 3)) 10) ++
          ((blob_ports attr).map (fun p => Event.cmd (add_cmd t.dev.ifname p)) ++
            [Event.set_state t.set_state true])) := by
  have hp : ports { t with ifnames := attr.ifname } = blob_ports attr := rfl
  simp only [team_reload, runCmd_status, h, if_true, team_set_state_up_trace,
    team_set_state_down_trace, team_set_state_down_sys, runCmd_trace, runCmd_sys, hp]
  simp

/-! ## The command buffers -/


theorem kill_fmt_take6 (n : CStr) : (snprintf 64 (kill_fmt n)).take 6 = "teamd ".toList := by
  have h : "teamd -t ".toList = "teamd ".toList ++ "-t ".toList := by decide
  simp only [snprintf, kill_fmt, List.take_take, h, List.append_assoc]
  rw [List.take_append_of_le_length (by decide)]
  decide

theorem add_cmd_take6 (n p : CStr) : (add_cmd n p).take 6 = "teamdc".toList := by
  have h : "teamdctl ".toList = "teamdc".toList ++ "tl ".toList := by decide
  simp only [add_cmd, snprintf, add_fmt, List.take_take, h, List.append_assoc]
  rw [List.take_append_of_le_length (by decide)]
  decide

theorem kill_cmd_ne_add_cmd (n m p : CStr) : snprintf 64 (kill_fmt n) ≠ add_cmd m p := by
  intro h
  have h6 := congrArg (List.take 6) h
  rw [kill_fmt_take6, add_cmd_take6] at h6
  revert h6
  decide

theorem kill_cmd_full (n : CStr) (h : n.length ≤ 51) : snprintf 64 (kill_fmt n) = kill_fmt n := by
  unfold snprintf
  apply List.take_of_length_le
  have h1 : "teamd -t ".toList.length = 9 := by decide
  have h2 : " -k".toList.length = 3 := by decide
  simp only [kill_fmt, List.length_append, h1, h2]
  omega

theorem check_cmd_full (n : CStr) (h : n.length ≤ 51) :
    snprintf 64 (check_fmt n) = check_fmt n := by
  unfold snprintf
  apply List.take_of_length_le
  have h1 : "teamd -t ".toList.length = 9 := by decide
  have h2 : " -e".toList.length = 3 := by decide
  simp only [check_fmt, List.length_append, h1, h2]
  omega

theorem add_cmd_full (n p : CStr) (h : n.length + p.length ≤ 44) :
    add_cmd n p = add_fmt n p := by
  unfold add_cmd snprintf
  apply List.take_of_length_le
  have h1 : "teamdctl ".toList.length = 9 := by decide
  have h2 : " port add ".toList.length = 10 := by decide
  simp only [add_fmt, List.length_append, h1, h2]
  omega

theorem start_fmt_length (n : CStr) : (start_fmt n).length = n.length + 50 := by
  have h1 : "teamd -t ".toList.length = 9 := by decide
  have h2 : " -c \x27\x7b \x22runner\x22: \x7b \x22name\x22: \x22lacp\x22 \x7d \x7d\x27 -d".toList.length
      = 41 := by decide
  simp only [start_fmt, List.length_append, h1, h2]
  omega

theorem start_cmd_full (n : CStr) (h : n.length ≤ 13) :
    snprintf 64 (start_fmt n) = start_fmt n := by
  unfold snprintf
  apply List.take_of_length_le
  rw [start_fmt_length]
  omega

theorem start_cmd_length (n : CStr) :
    (snprintf 64 (start_fmt n)).length = min 63 (n.length + 50) := by
  simp [snprintf, start_fmt_length]

theorem kill_fmt_length (n : CStr) : (kill_fmt n).length = n.length + 12 := by
  have h1 : "teamd -t ".toList.length = 9 := by decide
  have h2 : " -k".toList.length = 3 := by decide
  simp only [kill_fmt, List.length_append, h1, h2]
  omega

theorem kill_cmd_ne_check_cmd (n : CStr) (h : n.length ≤ 51) :
    snprintf 64 (kill_fmt n) ≠ snprintf 64 (check_fmt n) := by
  rw [kill_cmd_full n h, check_cmd_full n h]
  intro he
  have := List.append_cancel_left he
  revert this
  decide

theorem kill_cmd_ne_start_cmd (n : CStr) (h : n.length ≤ 37) :
    snprintf 64 (kill_fmt n) ≠ snprintf 64 (start_fmt n) := by
  intro he
  have hl := congrArg List.length he
  rw [kill_cmd_full n (by omega), kill_fmt_length, start_cmd_length] at hl
  omega

/-- The world `team_create` leaves is the one of its call of `team_reload`,
which sees the three commands and the handler of the finished record. -/
theorem team_create_world (fw : framework) (name : CStr) (attr : blob_attr) (w w1 : World)
    (t : team_device) (h : team_create fw name attr w = (some t, w1)) :
    w1 = (team_reload t attr w).2.2 := by
  unfold team_create at h
  by_cases hc : fw.calloc_ok = true
  · cases hi : fw.device_init name with
    | none => simp [hc, hi] at h
    | some r =>
      obtain ⟨ifname, hook⟩ := r
      simp only [hc, hi, if_true, Prod.mk.injEq, Option.some.injEq] at h
      rw [← h.2, ← h.1]
      rfl
  · simp [hc] at h

end Team

namespace Team

/-! ## C8: the poll loop -/

/-- C8: for every sequence of exit statuses of the health check, the poll loop
of `team_set_state` (up = true) ends. With `j` the number of attempts that fail
before the first success among the ten allowed (so that `k = j + 1` is the index
of the first successful attempt, and `j = 10` when there is none), the loop runs
the check `min (j + 1) 10` times and nothing else but a one-second sleep after
each failed attempt: no check after a success, never more than ten checks. -/
theorem C8_poll_loop_checks (c : CStr) (w : World) :
    (∀ i, i < failures w.sys 10 → w.sys i ≠ 0) ∧
    (failures w.sys 10 < 10 → w.sys (failures w.sys 10) = 0) ∧
    (poll c 10 w).trace =
      w.trace ++ ((List.replicate (failures w.sys 10) [Event.cmd c, Event.sleep 1]).flatten ++
        (if failures w.sys 10 < 10 then [Event.cmd c] else [])) ∧
    commands (added w (poll c 10 w)) = List.replicate (min (failures w.sys 10 + 1) 10) c ∧
    (poll c 10 w).sys = fun i => w.sys (i + min (failures w.sys 10 + 1) 10) := by
  have htrace := poll_trace c 10 w
  refine ⟨(failures_spec w.sys 10).1, (failures_spec w.sys 10).2, ?_, ?_, poll_sys c 10 w⟩
  · simpa [poll_events] using htrace
  · rw [added_append w _ _ htrace, commands_poll_events]
    have hle := failures_le w.sys 10
    congr 1
    split <;> omega

/-! ## C2: admin-up with a health check that succeeds on attempt k -/

/-- C2: when, during `team_set_state` with up = true, the health check first
returns success on attempt `k` (1 ≤ k ≤ 10; the start command takes the status
`w.sys 0`, attempt `i` the status `w.sys i`), the events are, in order: the
start command once, the check `k` times (a one-second sleep after each of the
`k - 1` failures), one port add per entry of the configured port list in
configuration order (none omitted, none issued a second time), then one call
of the saved handler with `true`. A port add names its port in full when
device and port name together have at most 44 characters, so that for a port
list without repetition no two port adds are the same; and the saved handler
is the one `device_init` had installed when `team_create` made the device. -/
theorem C2_admin_up_healthy_on_attempt (t : team_device) (w : World) (k : Nat)
    (hk1 : 1 ≤ k) (hk10 : k ≤ 10)
    (hfail : ∀ i, 1 ≤ i → i < k → w.sys i ≠ 0) (hok : w.sys k = 0) :
    (team_set_state t true w).2.trace =
      w.trace ++ Event.cmd t.start_cmd ::
        ((List.replicate (k - 1) [Event.cmd t.check_cmd, Event.sleep 1]).flatten ++
          Event.cmd t.check_cmd ::
            ((ports t).map (fun p => Event.cmd (add_cmd t.dev.ifname p)) ++
              [Event.set_state t.set_state true])) ∧
    commands (added w (team_set_state t true w).2) =
      t.start_cmd :: (List.replicate k t.check_cmd ++ (ports t).map (add_cmd t.dev.ifname)) ∧
    upstream_calls t.set_state (added w (team_set_state t true w).2) = [true] ∧
    (∀ p, p ∈ ports t → t.dev.ifname.length + p.length ≤ 44 →
      add_cmd t.dev.ifname p = add_fmt t.dev.ifname p) ∧
    ((ports t).Nodup → (∀ p, p ∈ ports t → t.dev.ifname.length + p.length ≤ 44) →
      ((ports t).map (add_cmd t.dev.ifname)).Nodup) ∧
    (∀ fw name attr w0 w1, team_create fw name attr w0 = (some t, w1) →
      ∃ ifname, fw.device_init name = some (ifname, t.set_state)) := by
  have hj : failures (fun i => w.sys (i + 1)) 10 = k - 1 := by
    apply failures_first
    · omega
    · intro i hi
      exact hfail (i + 1) (by omega) (by omega)
    · have : k - 1 + 1 = k := by omega
      simp [this, hok]
  have htrace := team_set_state_up_trace t w
  rw [hj] at htrace
  have hlt : k - 1 < 10 := by omega
  have hk : k - 1 + 1 = k := by omega
  refine ⟨?_, ?_, ?_, ?_, ?_, ?_⟩
  · simpa [poll_events, hlt] using htrace
  · rw [added_append w _ _ htrace]
    simp only [commands, commands_append, commands_poll_events, hlt, if_true, hk,
      commands_map_fun, List.append_nil]
  · rw [added_append w _ _ htrace]
    simp [upstream_calls, upstream_calls_append, upstream_calls_poll_events,
      upstream_calls_map_cmd]
  · intro p _ hlen
    exact add_cmd_full t.dev.ifname p hlen
  · intro hnd hfit
    apply List.Nodup.map_on _ hnd
    intro p hp q hq hpq
    rw [add_cmd_full _ p (hfit p hp), add_cmd_full _ q (hfit q hq)] at hpq
    exact List.append_cancel_left hpq
  · intro fw name attr w0 w1 hc
    obtain ⟨ifname, hook, hi, ht⟩ := team_create_some fw name attr w0 w1 t hc
    refine ⟨ifname, ?_⟩
    rw [hi, ht]

/-- Witness of C2: the device tm0 with ports eth0, eth1, health check failing
once and succeeding on attempt 2. -/
theorem C2_admin_up_healthy_on_attempt_witness :
    (team_set_state tm0 true (world_fail_first 2)).2.trace =
      [Event.cmd tm0.start_cmd,
       Event.cmd "teamd -t tm0 -e".toList, Event.sleep 1,
       Event.cmd "teamd -t tm0 -e".toList,
       Event.cmd "teamdctl tm0 port add eth0".toList,
       Event.cmd "teamdctl tm0 port add eth1".toList,
       Event.set_state 0 true] := by
  have h := (C2_admin_up_healthy_on_attempt tm0 (world_fail_first 2) 2 (by decide) (by decide)
    (by
      intro i h1 h2
      have hi : i = 1 := by omega
      subst hi
      decide)
    (by decide)).1
  rw [h]
  decide

end Team

namespace Team

/-! ## C1: admin-up with a health check that never succeeds -/

/-- C1, as stated, fails: on the device tm0 with ports eth0, eth1, in a world
where every command returns 1, all ten attempts of the health check of an
admin-up fail, and still both port add commands are issued and the saved
handler is called with `true`. -/
theorem C1_counterexample :
    (∀ i, i < 10 → (world_const 1).sys (i + 1) ≠ 0) ∧
    (team_set_state tm0 true (world_const 1)).2.trace =
      Event.cmd tm0.start_cmd ::
        ((List.replicate 10 [Event.cmd tm0.check_cmd, Event.sleep 1]).flatten ++
          [Event.cmd "teamdctl tm0 port add eth0".toList,
           Event.cmd "teamdctl tm0 port add eth1".toList,
           Event.set_state 0 true]) ∧
    Event.cmd "teamdctl tm0 port add eth0".toList ∈
      (team_set_state tm0 true (world_const 1)).2.trace ∧
    Event.set_state tm0.set_state true ∈ (team_set_state tm0 true (world_const 1)).2.trace := by
  refine ⟨by decide, by decide, by decide, by decide⟩

/-- C1, amended: when the health check returns a non-zero status on all ten
attempts of an admin-up, `team_set_state` runs the start command, the check
ten times (each followed by a one-second sleep), and then goes on as after a
success: one port add per configured port, in order, and one call of the saved
handler with `true`. -/
theorem C1_admin_up_never_healthy (t : team_device) (w : World)
    (hfail : ∀ i, i < 10 → w.sys (i + 1) ≠ 0) :
    (team_set_state t true w).2.trace =
      w.trace ++ Event.cmd t.start_cmd ::
        ((List.replicate 10 [Event.cmd t.check_cmd, Event.sleep 1]).flatten ++
          ((ports t).map (fun p => Event.cmd (add_cmd t.dev.ifname p)) ++
            [Event.set_state t.set_state true])) ∧
    commands (added w (team_set_state t true w).2) =
      t.start_cmd :: (List.replicate 10 t.check_cmd ++ (ports t).map (add_cmd t.dev.ifname)) ∧
    upstream_calls t.set_state (added w (team_set_state t true w).2) = [true] := by
  have hj : failures (fun i => w.sys (i + 1)) 10 = 10 :=
    failures_all (fun i => w.sys (i + 1)) 10 hfail
  have htrace := team_set_state_up_trace t w
  rw [hj] at htrace
  refine ⟨?_, ?_, ?_⟩
  · simpa [poll_events] using htrace
  · rw [added_append w _ _ htrace]
    simp [commands, commands_append, commands_poll_events, commands_map_fun]
  · rw [added_append w _ _ htrace]
    simp [upstream_calls, upstream_calls_append, upstream_calls_poll_events,
      upstream_calls_map_cmd]

/-- Witness of the amended C1: the device tm0 in a world where every command
returns 1. -/
theorem C1_admin_up_never_healthy_witness :
    commands (added (world_const 1) (team_set_state tm0 true (world_const 1)).2) =
      tm0.start_cmd :: (List.replicate 10 tm0.check_cmd ++
        ["teamdctl tm0 port add eth0".toList, "teamdctl tm0 port add eth1".toList]) ∧
    upstream_calls 0 (added (world_const 1) (team_set_state tm0 true (world_const 1)).2) =
      [true] := by
  have h := C1_admin_up_never_healthy tm0 (world_const 1) (by decide)
  refine ⟨?_, h.2.2⟩
  rw [h.2.1]
  decide

/-! ## C7: calls of the saved handler -/

/-- C7, as stated, fails: on the device tm0, an admin-up (health check
succeeding at once) followed by an admin-down calls the saved handler once,
with `true`, and not a second time with `false`. -/
theorem C7_counterexample :
    upstream_calls tm0.set_state
      (team_set_state tm0 false (team_set_state tm0 true (world_const 0)).2).2.trace = [true] ∧
    upstream_calls tm0.set_state
      (team_set_state tm0 false (team_set_state tm0 true (world_const 0)).2).2.trace
        ≠ [true, false] := by
  refine ⟨by decide, by decide⟩

/-- C7, amended: `team_set_state` calls the saved handler exactly once, with
`true`, on each admin-up, and not at all on an admin-down, whose only event is
the kill command; an admin-up followed by an admin-down produces exactly one
call of the saved handler, with `true`. -/
theorem C7_saved_handler_calls (t : team_device) (w : World) :
    upstream_calls t.set_state (added w (team_set_state t true w).2) = [true] ∧
    added w (team_set_state t false w).2 = [Event.cmd t.kill_cmd] ∧
    upstream_calls t.set_state (added w (team_set_state t false w).2) = [] ∧
    upstream_calls t.set_state
      (added w (team_set_state t false (team_set_state t true w).2).2) = [true] := by
  have hup := team_set_state_up_trace t w
  have hdown := team_set_state_down_trace t w
  have hboth := team_set_state_down_trace t (team_set_state t true w).2
  rw [hup] at hboth
  rw [List.append_assoc] at hboth
  refine ⟨?_, ?_, ?_, ?_⟩
  · rw [added_append w _ _ hup]
    simp [upstream_calls, upstream_calls_append, upstream_calls_poll_events,
      upstream_calls_map_cmd]
  · exact added_append w _ _ hdown
  · rw [added_append w _ _ hdown]
    simp [upstream_calls]
  · rw [added_append w _ _ hboth]
    simp [upstream_calls, upstream_calls_append, upstream_calls_poll_events,
      upstream_calls_map_cmd]

end Team

namespace Team

/-! ## C5 and C10: reload of a running and of a stopped device -/

/-- C5: when the health check run by `team_reload` succeeds (the helper is
running), the reload issues, after that check, the kill command, then the
start command, then polls the health check again, then issues one port add
per port of the new list, in order, whatever the old list was, and calls the
saved handler with `true`; it returns `DEV_CONFIG_APPLIED` with the new
configuration and port list stored. -/
theorem C5_reload_running_restarts (t : team_device) (attr : blob_attr) (w : World)
    (hrun : w.sys 0 = 0) :
    (team_reload t attr w).1 = dev_change_type.DEV_CONFIG_APPLIED ∧
    (team_reload t attr w).2.1 = { t with ifnames := attr.ifname, config_data := some attr } ∧
    (team_reload t attr w).2.2.trace =
      w.trace ++ Event.cmd t.check_cmd :: Event.cmd t.kill_cmd :: Event.cmd t.start_cmd ::
        (poll_events t.check_cmd 10 (failures (fun i => w.sys (i + 3)) 10) ++
          ((blob_ports attr).map (fun p => Event.cmd (add_cmd t.dev.ifname p)) ++
            [Event.set_state t.set_state true])) ∧
    commands (added w (team_reload t attr w).2.2) =
      t.check_cmd :: t.kill_cmd :: t.start_cmd ::
        (List.replicate (min (failures (fun i => w.sys (i + 3)) 10 + 1) 10) t.check_cmd ++
          (blob_ports attr).map (add_cmd t.dev.ifname)) := by
  have htrace := team_reload_trace_running t attr w hrun
  refine ⟨rfl, rfl, htrace, ?_⟩
  rw [added_append w _ _ htrace]
  have hle := failures_le (fun i => w.sys (i + 3)) 10
  have hn : (if failures (fun i => w.sys (i + 3)) 10 < 10
      then failures (fun i => w.sys (i + 3)) 10 + 1
      else failures (fun i => w.sys (i + 3)) 10) =
      min (failures (fun i => w.sys (i + 3)) 10 + 1) 10 := by
    split <;> omega
  simp [commands, commands_append, commands_poll_events, commands_map_fun, hn]

/-- Witness of C5: the running device tm0 with ports eth0, eth1 reloaded with
the same port list; every command returns 0. -/
theorem C5_reload_running_restarts_witness :
    commands (added (world_const 0) (team_reload tm0 cfg01 (world_const 0)).2.2) =
      ["teamd -t tm0 -e".toList, "teamd -t tm0 -k".toList, tm0.start_cmd,
       "teamd -t tm0 -e".toList,
       "teamdctl tm0 port add eth0".toList, "teamdctl tm0 port add eth1".toList] := by
  have h := (C5_reload_running_restarts tm0 cfg01 (world_const 0) (by decide)).2.2.2
  rw [h]
  decide

/-- C10: when the health check run by `team_reload` fails (the helper is not
running), the reload runs that one check command and nothing else, stores the
new configuration and the new port list and returns `DEV_CONFIG_APPLIED`; the
next admin-up then issues its port adds for the ports of the new list, in
order, and for no others. -/
theorem C10_reload_stopped_stores_config (t : team_device) (attr : blob_attr) (w : World)
    (hdown : w.sys 0 ≠ 0) :
    (team_reload t attr w).1 = dev_change_type.DEV_CONFIG_APPLIED ∧
    (team_reload t attr w).2.1 = { t with ifnames := attr.ifname, config_data := some attr } ∧
    added w (team_reload t attr w).2.2 = [Event.cmd t.check_cmd] ∧
    commands (added w (team_reload t attr w).2.2) = [t.check_cmd] ∧
    ∀ w2 : World,
      (team_set_state (team_reload t attr w).2.1 true w2).2.trace =
        w2.trace ++ Event.cmd t.start_cmd ::
          (poll_events t.check_cmd 10 (failures (fun i => w2.sys (i + 1)) 10) ++
            ((blob_ports attr).map (fun p => Event.cmd (add_cmd t.dev.ifname p)) ++
              [Event.set_state t.set_state true])) := by
  have htrace := team_reload_trace_stopped t attr w hdown
  have hadded := added_append w _ _ htrace
  refine ⟨rfl, rfl, hadded, ?_, ?_⟩
  · rw [hadded]
    simp [commands]
  · intro w2
    exact team_set_state_up_trace _ w2

/-- Witness of C10: the stopped device tm0 with ports eth0, eth1 is reloaded
with the ports eth1, eth2 (every command returns 1); a later admin-up in a
world where every command returns 0 adds eth1 and eth2, not eth0. -/
theorem C10_reload_stopped_stores_config_witness :
    commands (added (world_const 1) (team_reload tm0 cfg12 (world_const 1)).2.2) =
      ["teamd -t tm0 -e".toList] ∧
    (team_set_state (team_reload tm0 cfg12 (world_const 1)).2.1 true (world_const 0)).2.trace =
      [Event.cmd tm0.start_cmd, Event.cmd "teamd -t tm0 -e".toList,
       Event.cmd "teamdctl tm0 port add eth1".toList,
       Event.cmd "teamdctl tm0 port add eth2".toList,
       Event.set_state 0 true] := by
  have h := C10_reload_stopped_stores_config tm0 cfg12 (world_const 1) (by decide)
  refine ⟨h.2.2.2.1, ?_⟩
  rw [h.2.2.2.2 (world_const 0)]
  decide

/-! ## C3: reload with the configuration already applied -/

/-- C3, as stated, fails: the running device tm0, which holds the
configuration `cfg01`, is reloaded with `cfg01` (every command returns 0); the
reload runs six commands, among them the kill and the start command, and
returns `DEV_CONFIG_APPLIED`, not `DEV_CONFIG_NO_CHANGE`. -/
theorem C3_counterexample :
    tm0.config_data = some cfg01 ∧
    commands (team_reload tm0 cfg01 (world_const 0)).2.2.trace =
      ["teamd -t tm0 -e".toList, "teamd -t tm0 -k".toList, tm0.start_cmd,
       "teamd -t tm0 -e".toList,
       "teamdctl tm0 port add eth0".toList, "teamdctl tm0 port add eth1".toList] ∧
    commands (team_reload tm0 cfg01 (world_const 0)).2.2.trace ≠ [] ∧
    (team_reload tm0 cfg01 (world_const 0)).1 ≠ dev_change_type.DEV_CONFIG_NO_CHANGE := by
  refine ⟨by decide, by decide, by decide, by decide⟩

/-- C3, amended: `team_reload` with a configuration equal to the one already
applied is not short-circuited. It leaves the stored configuration and port
list as they were and returns `DEV_CONFIG_APPLIED`, but it always runs the
check command first; when that check fails it runs nothing else, and when it
succeeds it goes on with the kill and the start command. -/
theorem C3_reload_same_config (t : team_device) (c : blob_attr) (w : World)
    (hcfg : t.config_data = some c) (hports : t.ifnames = c.ifname) :
    (team_reload t c w).1 = dev_change_type.DEV_CONFIG_APPLIED ∧
    (team_reload t c w).2.1 = t ∧
    (added w (team_reload t c w).2.2).take 1 = [Event.cmd t.check_cmd] ∧
    (w.sys 0 ≠ 0 → added w (team_reload t c w).2.2 = [Event.cmd t.check_cmd]) ∧
    (w.sys 0 = 0 → (added w (team_reload t c w).2.2).take 3 =
      [Event.cmd t.check_cmd, Event.cmd t.kill_cmd, Event.cmd t.start_cmd]) := by
  have hdev : (team_reload t c w).2.1 = t := by
    rw [team_reload_device, ← hcfg, ← hports]
  have hstop : w.sys 0 ≠ 0 → added w (team_reload t c w).2.2 = [Event.cmd t.check_cmd] :=
    fun h => added_append w _ _ (team_reload_trace_stopped t c w h)
  have hrun : w.sys 0 = 0 → (added w (team_reload t c w).2.2).take 3 =
      [Event.cmd t.check_cmd, Event.cmd t.kill_cmd, Event.cmd t.start_cmd] := by
    intro h
    rw [added_append w _ _ (team_reload_trace_running t c w h)]
    simp
  refine ⟨rfl, hdev, ?_, hstop, hrun⟩
  by_cases h : w.sys 0 = 0
  · have h3 := hrun h
    have := congrArg (List.take 1) h3
    simpa [List.take_take] using this
  · rw [hstop h]
    simp

/-- Witness of the amended C3: the device tm0 reloaded with its own
configuration `cfg01`, once stopped and once running. -/
theorem C3_reload_same_config_witness :
    (team_reload tm0 cfg01 (world_const 1)).2.1 = tm0 ∧
    added (world_const 1) (team_reload tm0 cfg01 (world_const 1)).2.2 =
      [Event.cmd "teamd -t tm0 -e".toList] := by
  have h := C3_reload_same_config tm0 cfg01 (world_const 1) (by decide) (by decide)
  exact ⟨h.2.1, h.2.2.2.1 (by decide)⟩

end Team

namespace Team

/-! ## C4: reload that changes the port list only -/

/-- C4, as stated, fails: the running device tm0 with ports eth0, eth1 is
reloaded with the ports eth1, eth2 and nothing else changed (every command
returns 0). The reload issues the kill and the start command, adds eth1 as
well as eth2, and issues no command at all for eth0. -/
theorem C4_counterexample :
    tm0.config_data = some cfg01 ∧ cfg12.params = cfg01.params ∧
    commands (team_reload tm0 cfg12 (world_const 0)).2.2.trace =
      ["teamd -t tm0 -e".toList, "teamd -t tm0 -k".toList, tm0.start_cmd,
       "teamd -t tm0 -e".toList,
       "teamdctl tm0 port add eth1".toList, "teamdctl tm0 port add eth2".toList] ∧
    tm0.kill_cmd ∈ commands (team_reload tm0 cfg12 (world_const 0)).2.2.trace ∧
    tm0.start_cmd ∈ commands (team_reload tm0 cfg12 (world_const 0)).2.2.trace ∧
    add_cmd tm0.dev.ifname "eth1".toList ∈
      commands (team_reload tm0 cfg12 (world_const 0)).2.2.trace ∧
    "teamdctl tm0 port remove eth0".toList ∉
      commands (team_reload tm0 cfg12 (world_const 0)).2.2.trace := by
  refine ⟨by decide, by decide, by decide, by decide, by decide, by decide, by decide⟩

/-- C4, amended: on a running device, a reload is handled as a restart, also
when the new configuration differs from the applied one in its port list
only, since the configurations are not compared: the reload issues
the check, the kill and the start command, polls the health check, and then
issues a port add for every port of the new list, in order, also for those
that were in the old list. Every command it issues is one of these: no
command is issued for a port that is in the old list only. -/
theorem C4_reload_ports_changed (t : team_device) (new : blob_attr) (w : World)
    (hrun : w.sys 0 = 0) :
    commands (added w (team_reload t new w).2.2) =
      t.check_cmd :: t.kill_cmd :: t.start_cmd ::
        (List.replicate (min (failures (fun i => w.sys (i + 3)) 10 + 1) 10) t.check_cmd ++
          (blob_ports new).map (add_cmd t.dev.ifname)) ∧
    t.kill_cmd ∈ commands (added w (team_reload t new w).2.2) ∧
    t.start_cmd ∈ commands (added w (team_reload t new w).2.2) ∧
    (∀ p, p ∈ blob_ports new →
      add_cmd t.dev.ifname p ∈ commands (added w (team_reload t new w).2.2)) ∧
    (∀ c, c ∈ commands (added w (team_reload t new w).2.2) →
      c = t.check_cmd ∨ c = t.kill_cmd ∨ c = t.start_cmd ∨
        ∃ p, p ∈ blob_ports new ∧ c = add_cmd t.dev.ifname p) := by
  have htrace := team_reload_trace_running t new w hrun
  have hle := failures_le (fun i => w.sys (i + 3)) 10
  have hn : (if failures (fun i => w.sys (i + 3)) 10 < 10
      then failures (fun i => w.sys (i + 3)) 10 + 1
      else failures (fun i => w.sys (i + 3)) 10) =
      min (failures (fun i => w.sys (i + 3)) 10 + 1) 10 := by
    split <;> omega
  have hcmds : commands (added w (team_reload t new w).2.2) =
      t.check_cmd :: t.kill_cmd :: t.start_cmd ::
        (List.replicate (min (failures (fun i => w.sys (i + 3)) 10 + 1) 10) t.check_cmd ++
          (blob_ports new).map (add_cmd t.dev.ifname)) := by
    rw [added_append w _ _ htrace]
    simp [commands, commands_append, commands_poll_events, commands_map_fun, hn]
  rw [hcmds]
  refine ⟨rfl, by simp, by simp, ?_, ?_⟩
  · intro p hp
    simp only [List.mem_cons, List.mem_append, List.mem_map]
    exact Or.inr (Or.inr (Or.inr (Or.inr ⟨p, hp, rfl⟩)))
  · intro c hc
    simp only [List.mem_cons, List.mem_append, List.mem_map] at hc
    rcases hc with h | h | h | h | ⟨p, hp, rfl⟩
    · exact Or.inl h
    · exact Or.inr (Or.inl h)
    · exact Or.inr (Or.inr (Or.inl h))
    · exact Or.inl (List.eq_of_mem_replicate h)
    · exact Or.inr (Or.inr (Or.inr ⟨p, hp, rfl⟩))

/-- Witness of the amended C4: the running device tm0 with ports eth0, eth1
reloaded with the ports eth1, eth2; every command returns 0. -/
theorem C4_reload_ports_changed_witness :
    commands (added (world_const 0) (team_reload tm0 cfg12 (world_const 0)).2.2) =
      ["teamd -t tm0 -e".toList, "teamd -t tm0 -k".toList, tm0.start_cmd,
       "teamd -t tm0 -e".toList,
       "teamdctl tm0 port add eth1".toList, "teamdctl tm0 port add eth2".toList] := by
  have h := (C4_reload_ports_changed tm0 cfg12 (world_const 0) (by decide)).1
  rw [h]
  decide

/-! ## C6: freeing a device -/

/-- C6, as stated, fails: the device tm0 is created while no helper runs (the
check of the creation returns 1), brought up (start and check return 0) and
freed. The start command has been issued, the kill command never. -/
theorem C6_counterexample :
    (team_create fw0 "tm0".toList cfg01 (world_fail_first 1)).1 = some tm0 ∧
    commands (team_free tm0 (team_set_state tm0 true
        (team_create fw0 "tm0".toList cfg01 (world_fail_first 1)).2).2).trace =
      ["teamd -t tm0 -e".toList, tm0.start_cmd, "teamd -t tm0 -e".toList,
       "teamdctl tm0 port add eth0".toList, "teamdctl tm0 port add eth1".toList] ∧
    tm0.start_cmd ∈ commands (team_free tm0 (team_set_state tm0 true
        (team_create fw0 "tm0".toList cfg01 (world_fail_first 1)).2).2).trace ∧
    tm0.kill_cmd ∉ commands (team_free tm0 (team_set_state tm0 true
        (team_create fw0 "tm0".toList cfg01 (world_fail_first 1)).2).2).trace := by
  refine ⟨by decide, by decide, by decide, by decide⟩

/-- C6, amended: `team_free` issues no command. In a sequence create,
admin-up, free of a device whose name has at most 15 characters and whose
helper is not running at creation (the check of the creation fails), the
commands issued by the time the record is freed are the check of the
creation, the start command, the checks of the poll loop and the port adds:
the start command is among them and the kill command is not. -/
theorem C6_free_runs_no_command (fw : framework) (name : CStr) (attr : blob_attr)
    (w w1 : World) (t : team_device)
    (hcreate : team_create fw name attr w = (some t, w1))
    (hdown : w.sys 0 ≠ 0) (hlen : t.dev.ifname.length ≤ 15) :
    (∀ w2 : World, (team_free t w2).trace = w2.trace) ∧
    commands (added w (team_free t (team_set_state t true w1).2)) =
      t.check_cmd :: t.start_cmd ::
        (List.replicate (min (failures (fun i => w.sys (i + 2)) 10 + 1) 10) t.check_cmd ++
          (blob_ports attr).map (add_cmd t.dev.ifname)) ∧
    t.start_cmd ∈ commands (added w (team_free t (team_set_state t true w1).2)) ∧
    t.kill_cmd ∉ commands (added w (team_free t (team_set_state t true w1).2)) := by
  obtain ⟨ifname, hook, _, ht⟩ := team_create_some fw name attr w w1 t hcreate
  have hw1 := team_create_world fw name attr w w1 t hcreate
  have hw1t : w1.trace = w.trace ++ [Event.cmd t.check_cmd] := by
    rw [hw1]; exact team_reload_trace_stopped t attr w hdown
  have hw1s : w1.sys = fun i => w.sys (i + 1) := by
    rw [hw1]; simp [team_reload, hdown]
  have hp : ports t = blob_ports attr := by rw [ht]; rfl
  have htrace : (team_free t (team_set_state t true w1).2).trace =
      w.trace ++ Event.cmd t.check_cmd :: Event.cmd t.start_cmd ::
        (poll_events t.check_cmd 10 (failures (fun i => w.sys (i + 2)) 10) ++
          ((blob_ports attr).map (fun p => Event.cmd (add_cmd t.dev.ifname p)) ++
            [Event.set_state t.set_state true])) := by
    show (team_set_state t true w1).2.trace = _
    rw [team_set_state_up_trace, hw1t, hw1s, hp]
    simp
  have hle := failures_le (fun i => w.sys (i + 2)) 10
  have hn : (if failures (fun i => w.sys (i + 2)) 10 < 10
      then failures (fun i => w.sys (i + 2)) 10 + 1
      else failures (fun i => w.sys (i + 2)) 10) =
      min (failures (fun i => w.sys (i + 2)) 10 + 1) 10 := by
    split <;> omega
  have hcmds : commands (added w (team_free t (team_set_state t true w1).2)) =
      t.check_cmd :: t.start_cmd ::
        (List.replicate (min (failures (fun i => w.sys (i + 2)) 10 + 1) 10) t.check_cmd ++
          (blob_ports attr).map (add_cmd t.dev.ifname)) := by
    rw [added_append w _ _ htrace]
    simp [commands, commands_append, commands_poll_events, commands_map_fun, hn]
  have hifname : t.dev.ifname = ifname := by rw [ht]
  rw [hifname] at hlen
  have hkill : t.kill_cmd = snprintf 64 (kill_fmt ifname) := by rw [ht]
  have hcheck : t.check_cmd = snprintf 64 (check_fmt ifname) := by rw [ht]
  have hstart : t.start_cmd = snprintf 64 (start_fmt ifname) := by rw [ht]
  refine ⟨fun _ => rfl, hcmds, ?_, ?_⟩
  · rw [hcmds]; simp
  · rw [hcmds]
    simp only [List.mem_cons, List.mem_append, List.mem_map, not_or]
    refine ⟨?_, ?_, ?_, ?_⟩
    · rw [hkill, hcheck]
      exact kill_cmd_ne_check_cmd ifname (by omega)
    · rw [hkill, hstart]
      exact kill_cmd_ne_start_cmd ifname (by omega)
    · intro hmem
      have := List.eq_of_mem_replicate hmem
      rw [hkill, hcheck] at this
      exact kill_cmd_ne_check_cmd ifname (by omega) this
    · rintro ⟨p, _, hp⟩
      rw [hkill] at hp
      exact kill_cmd_ne_add_cmd ifname _ p hp.symm

/-- Witness of the amended C6: create, admin-up and free of the device tm0
with ports eth0, eth1; the check of the creation returns 1, every later
command 0. -/
theorem C6_free_runs_no_command_witness :
    "teamd -t tm0 -k".toList ∉
      commands (added (world_fail_first 1) (team_free tm0 (team_set_state tm0 true
        (team_create fw0 "tm0".toList cfg01 (world_fail_first 1)).2).2)) :=
  (C6_free_runs_no_command fw0 "tm0".toList cfg01 (world_fail_first 1)
    (team_create fw0 "tm0".toList cfg01 (world_fail_first 1)).2 tm0
    (by
      apply Prod.ext
      · decide
      · rfl)
    (by decide) (by decide)).2.2.2

/-! ## C9: the 64-byte command buffers -/

/-- C9, evaluated where it fails: for the 15-character device name
`team-uplink-wan` the start command has 65 characters, of which `team_create`
stores the first 63: the stored command has lost its final `-d`. The kill and
the check command are stored whole. -/
theorem C9_start_cmd_truncated :
    "team-uplink-wan".toList.length = 15 ∧
    (start_fmt "team-uplink-wan".toList).length = 65 ∧
    (team_create fw0 "team-uplink-wan".toList cfg01 (world_const 1)).1.map
        team_device.start_cmd =
      some "teamd -t team-uplink-wan -c \x27\x7b \x22runner\x22: \x7b \x22name\x22: \x22lacp\x22 \x7d \x7d\x27 ".toList ∧
    (team_create fw0 "team-uplink-wan".toList cfg01 (world_const 1)).1.map
        team_device.start_cmd ≠
      some (start_fmt "team-uplink-wan".toList) ∧
    (team_create fw0 "team-uplink-wan".toList cfg01 (world_const 1)).1.map
        team_device.kill_cmd = some "teamd -t team-uplink-wan -k".toList ∧
    (team_create fw0 "team-uplink-wan".toList cfg01 (world_const 1)).1.map
        team_device.check_cmd = some "teamd -t team-uplink-wan -e".toList := by
  refine ⟨by decide, by decide, by decide, by decide, by decide, by decide⟩

end Team
